import Mathlib

/-!
Verification of the ActiveCampaign synchronisation script (src/script.py).

The script is a batch job: it maps spreadsheet rows to contact records,
splits them into size-bounded batches, POSTs the batches to a bulk-import
endpoint, collects bounced/unsubscribed contacts page by page, filters them
to a rolling date window, and appends one metadata row to a remote run log.

This file shallowly embeds those parts of the script that the specification
makes claims about.  Machine integers are modelled as `Nat`/`Int`; the
`json.dumps`/`sys.getsizeof` size measurement is passed in as a parameter;
HTTP calls are modelled as functions from the request to the response, and
the requests issued are recorded explicitly.  Python's `while` loop in
`payload_parser` is embedded with an explicit fuel argument; the fuel
`len_payload` is provably sufficient because every iteration advances the
last boundary by at least one (see `payloadClamp_spec`, whose fuel
hypothesis `n - last ≤ fuel` is maintained throughout, so the fuel-exhausted
branch is never taken under the conditions in which the script runs).
-/

/-- Mirrors the Python statement `list_index[-1] = len_payload` at
src/script.py:92: replace the last element of a list by `v`. -/
def setLast : List Nat → Nat → List Nat
  | [], _ => []
  | [_], v => [v]
  | x :: y :: t, v => x :: setLast (y :: t) v

/-- The `while list_index[-1] < len_payload` loop of `payload_parser`
(src/script.py:89-91).  `last` is the current `list_index[-1]`; each
iteration appends `last + step + 1` where
`step = int(360000 / payload_size_bytes * len_payload)` is precomputed by
the caller.  The first argument is fuel bounding the number of iterations;
since every iteration increases `last` by at least 1, `n - last` iterations
always suffice. -/
def payloadLoop (n step : Nat) : Nat → Nat → List Nat
  | 0, _ => []
  | fuel + 1, last =>
    if last < n then (last + step + 1) :: payloadLoop n step fuel (last + step + 1) else []

/-- `payload_parser` (src/script.py:85-94).  `len_payload` is
`len(payload["contacts"])` and `payload_size_bytes` is the measured
serialized size `sys.getsizeof(json.dumps(payload["contacts"]))`, passed in
as a parameter.  The float expression
`int(360000 / payload_size_bytes * len_payload)` is modelled by the exact
rational floor `360000 * len_payload / payload_size_bytes`. -/
def payloadParser (len_payload payload_size_bytes : Nat) : List Nat :=
  setLast (0 :: payloadLoop len_payload (360000 * len_payload / payload_size_bytes)
             len_payload 0) len_payload

/-- The batches induced by a boundary list, mirroring the Python slices
`payload["contacts"][payload_index[i] : payload_index[i + 1]]` taken for
`i in range(len(payload_index) - 1)` (src/script.py:213-216). -/
def slices (l : List α) (idx : List Nat) : List (List α) :=
  (idx.zip idx.tail).map (fun p => (l.drop p.1).take (p.2 - p.1))

lemma setLast_cons_cons (x y : Nat) (t : List Nat) (v : Nat) :
    setLast (x :: y :: t) v = x :: setLast (y :: t) v := rfl

/-- Master lemma about the clamped boundary list: starting the loop at
`last` with enough fuel, the clamped list `setLast (last :: loop) n` starts
at `last` (or at `n` when the loop body never runs), ends at `n`, and
consecutive boundaries `a < b` differ by at most `step + 1`. -/
lemma payloadClamp_spec (n step : Nat) :
    ∀ (fuel last : Nat), n - last ≤ fuel →
      (setLast (last :: payloadLoop n step fuel last) n).head?
          = some (if last < n then last else n)
      ∧ List.Chain' (fun a b => a < b ∧ b ≤ a + (step + 1))
          (setLast (last :: payloadLoop n step fuel last) n)
      ∧ (setLast (last :: payloadLoop n step fuel last) n).getLast? = some n := by
  intro fuel
  induction fuel with
  | zero =>
    intro last h
    have hn : ¬ last < n := by omega
    simp [payloadLoop, setLast, hn]
  | succ fuel ih =>
    intro last h
    by_cases hl : last < n
    · have hstep : payloadLoop n step (fuel + 1) last
          = (last + step + 1) :: payloadLoop n step fuel (last + step + 1) := by
        simp [payloadLoop, hl]
      have hfuel : n - (last + step + 1) ≤ fuel := by omega
      obtain ⟨ihh, ihc, ihl⟩ := ih (last + step + 1) hfuel
      rw [hstep, setLast_cons_cons]
      refine ⟨by simp [hl], ?_, ?_⟩
      · rw [List.chain'_cons']
        refine ⟨?_, ihc⟩
        intro y hy
        rw [ihh, Option.mem_def, Option.some_inj] at hy
        by_cases hnext : last + step + 1 < n
        · rw [if_pos hnext] at hy
          omega
        · rw [if_neg hnext] at hy
          omega
      · rcases hsh : setLast ((last + step + 1) ::
            payloadLoop n step fuel (last + step + 1)) n with _ | ⟨z, zs⟩
        · rw [hsh] at ihl
          simp at ihl
        · rw [hsh] at ihl
          rw [List.getLast?_cons_cons, ihl]
    · have hstep : payloadLoop n step (fuel + 1) last = [] := by
        simp [payloadLoop, hl]
      simp [hstep, setLast, hl]

lemma payloadParser_spec (n B : Nat) :
    (payloadParser n B).head? = some 0
    ∧ List.Chain' (fun a b => a < b ∧ b ≤ a + (360000 * n / B + 1)) (payloadParser n B)
    ∧ (payloadParser n B).getLast? = some n := by
  obtain ⟨h1, h2, h3⟩ := payloadClamp_spec n (360000 * n / B) n 0 (by omega)
  unfold payloadParser
  refine ⟨?_, h2, h3⟩
  rw [h1]
  by_cases hn : 0 < n
  · rw [if_pos hn]
  · rw [if_neg hn]
    have hz : n = 0 := by omega
    rw [hz]

lemma slices_cons_cons (l : List α) (a b : Nat) (rest : List Nat) :
    slices l (a :: b :: rest) = ((l.drop a).take (b - a)) :: slices l (b :: rest) := rfl

/-- Joining the slices of a nondecreasing boundary chain starting at `a` and
ending at `l.length` recovers the suffix `l.drop a`. -/
lemma slices_flatten_aux :
    ∀ (idx : List Nat) (a : Nat) (l : List α), List.Chain (· ≤ ·) a idx →
      (a :: idx).getLast? = some l.length → (slices l (a :: idx)).flatten = l.drop a := by
  intro idx
  induction idx with
  | nil =>
    intro a l _ hlast
    simp only [List.getLast?_singleton, Option.some_inj] at hlast
    simp [slices, hlast, List.drop_length]
  | cons b rest ih =>
    intro a l hchain hlast
    rw [List.chain_cons] at hchain
    rw [List.getLast?_cons_cons] at hlast
    rw [slices_cons_cons, List.flatten_cons, ih b l hchain.2 hlast]
    have hdrop : l.drop b = (l.drop a).drop (b - a) := by
      rw [List.drop_drop]
      congr 1
      omega
    rw [hdrop, List.take_append_drop]

lemma slices_flatten (idx : List Nat) (l : List α)
    (hhead : idx.head? = some 0) (hchain : List.Chain' (· ≤ ·) idx)
    (hlast : idx.getLast? = some l.length) :
    (slices l idx).flatten = l := by
  rcases idx with _ | ⟨a, rest⟩
  · simp at hhead
  · simp only [List.head?_cons, Option.some_inj] at hhead
    subst hhead
    have hc : List.Chain (· ≤ ·) 0 rest := hchain
    rw [slices_flatten_aux rest 0 l hc hlast, List.drop_zero]

/-- Every adjacent pair of a `Chain'` list is related. -/
lemma chain'_zip_tail {R : Nat → Nat → Prop} :
    ∀ (idx : List Nat), List.Chain' R idx → ∀ p ∈ idx.zip idx.tail, R p.1 p.2 := by
  intro idx
  induction idx with
  | nil => intro _ p hp; simp [List.zip] at hp
  | cons a rest ih =>
    intro hchain p hp
    rcases rest with _ | ⟨b, t⟩
    · simp [List.zip] at hp
    · rw [List.chain'_cons] at hchain
      rw [List.tail_cons, List.zip_cons_cons, List.mem_cons] at hp
      rcases hp with hp | hp
      · rw [hp]
        exact hchain.1
      · exact ih hchain.2 p hp

/-- Each slice of a boundary list whose consecutive boundaries differ by at
most `c` holds at most `c` records. -/
lemma slices_length_le (l : List α) (idx : List Nat) (c : Nat)
    (hchain : List.Chain' (fun a b => b ≤ a + c) idx) :
    ∀ sl ∈ slices l idx, sl.length ≤ c := by
  intro sl hsl
  rw [slices, List.mem_map] at hsl
  obtain ⟨p, hp, rfl⟩ := hsl
  have hrel := chain'_zip_tail idx hchain p hp
  calc ((l.drop p.1).take (p.2 - p.1)).length ≤ p.2 - p.1 := by
        rw [List.length_take]
        omega
    _ ≤ c := by omega

/-- Claim C2 — Batch Partitioner: for every record list of length `N`,
`payload_parser` terminates (it is a total function of the embedded loop,
whose fuel `N` is provably sufficient) and returns a boundary list that
starts at 0, is strictly increasing, and ends at `N`; for `N = 0` it
returns the single boundary `[0]`.  `hB` records that the measured payload
size is positive, which `sys.getsizeof` guarantees. -/
theorem payloadParser_boundaries (n B : Nat) (hB : 0 < B) :
    (payloadParser n B).head? = some 0
    ∧ List.Chain' (· < ·) (payloadParser n B)
    ∧ (payloadParser n B).getLast? = some n
    ∧ payloadParser 0 B = [0] := by
  obtain ⟨h1, h2, h3⟩ := payloadParser_spec n B
  exact ⟨h1, h2.imp (fun a b hab => hab.1), h3, rfl⟩

theorem payloadParser_boundaries_witness :
    (0 : Nat) < 100
    ∧ ((payloadParser 5 100).head? = some 0
        ∧ List.Chain' (· < ·) (payloadParser 5 100)
        ∧ (payloadParser 5 100).getLast? = some 5
        ∧ payloadParser 0 100 = [0])
    ∧ payloadParser 5 100 = [0, 5] :=
  ⟨by decide, payloadParser_boundaries 5 100 (by decide), by decide⟩

/-- The bulk-import endpoint (src/script.py:59). -/
def url_bulk_import_contact : String := "https://hri618.api-us1.com/api/3/import/bulk_import"

/-- Observable actions of the bulk-import loop: an HTTP POST of a batch of
contacts to an endpoint, or a `time.sleep` of a number of seconds. -/
inductive ImportEvent (α : Type) where
  | post (endpoint : String) (contacts : List α)
  | sleep (seconds : Nat)
deriving DecidableEq

/-- Modelled from the spec: the POST loop at src/script.py:213-220 iterates
`i in range(len(payload_index) - 1)`, POSTs the slice
`to_import[payload_index[i] : payload_index[i + 1]]` and then sleeps one
second.  As written the loop posts to the undefined name `url`; the
spec's Bulk Import Client and the adjacent definition make
`url_bulk_import_contact` the evident intent, so the model posts there.
The pairs `(payload_index[i], payload_index[i+1])` are `idx.zip idx.tail`. -/
def bulkImportLoop (records : List α) (idx : List Nat) : List (ImportEvent α) :=
  (idx.zip idx.tail).flatMap
    (fun p => [ImportEvent.post url_bulk_import_contact ((records.drop p.1).take (p.2 - p.1)),
               ImportEvent.sleep 1])

/-- The batches POSTed along a trace, in order. -/
def postedPayloads (tr : List (ImportEvent α)) : List (List α) :=
  tr.filterMap (fun e => match e with
    | ImportEvent.post _ cs => some cs
    | ImportEvent.sleep _ => none)

lemma postedPayloads_flatMap_pair (g : Nat × Nat → List α) :
    ∀ ps : List (Nat × Nat),
      postedPayloads (ps.flatMap
        (fun p => [ImportEvent.post url_bulk_import_contact (g p), ImportEvent.sleep 1]))
      = ps.map g := by
  intro ps
  induction ps with
  | nil => rfl
  | cons p t ih =>
    rw [List.flatMap_cons, List.map_cons]
    rw [postedPayloads, List.filterMap_append] at *
    rw [ih]
    rfl

lemma flatMap_map_pair (g : Nat × Nat → List α) :
    ∀ ps : List (Nat × Nat),
      (ps.map g).flatMap
          (fun b => [ImportEvent.post url_bulk_import_contact b, ImportEvent.sleep 1])
      = ps.flatMap
          (fun p => [ImportEvent.post url_bulk_import_contact (g p), ImportEvent.sleep 1]) := by
  intro ps
  induction ps with
  | nil => rfl
  | cons p t ih =>
    rw [List.map_cons, List.flatMap_cons, List.flatMap_cons, ih]

/-- Claim C3 — the batches induced by `payload_parser`'s boundaries
partition the record list exactly (their concatenation, in POST order, is
the original list), and the bulk-import loop emits exactly one POST per
batch, in boundary order, each followed by a one-second sleep. -/
theorem bulk_import_loop_partition {α : Type} (l : List α) (B : Nat) (hB : 0 < B) :
    postedPayloads (bulkImportLoop l (payloadParser l.length B))
        = slices l (payloadParser l.length B)
    ∧ (postedPayloads (bulkImportLoop l (payloadParser l.length B))).flatten = l
    ∧ bulkImportLoop l (payloadParser l.length B)
        = (slices l (payloadParser l.length B)).flatMap
            (fun b => [ImportEvent.post url_bulk_import_contact b, ImportEvent.sleep 1]) := by
  obtain ⟨h1, h2, h3⟩ := payloadParser_spec l.length B
  have hposted : postedPayloads (bulkImportLoop l (payloadParser l.length B))
      = slices l (payloadParser l.length B) := by
    unfold bulkImportLoop slices
    exact postedPayloads_flatMap_pair (fun p => (l.drop p.1).take (p.2 - p.1)) _
  refine ⟨hposted, ?_, ?_⟩
  · rw [hposted]
    exact slices_flatten _ l h1 (h2.imp (fun a b hab => Nat.le_of_lt hab.1)) h3
  · unfold bulkImportLoop slices
    rw [flatMap_map_pair]

theorem bulk_import_loop_partition_witness :
    (0 : Nat) < 100
    ∧ (postedPayloads (bulkImportLoop [10, 20, 30] (payloadParser (List.length [10, 20, 30]) 100))).flatten
        = [10, 20, 30] :=
  ⟨by decide, (bulk_import_loop_partition [10, 20, 30] 100 (by decide)).2.1⟩

/-- Claim C4, counterexample — two records that each serialize to 300000
bytes are perfectly uniform, and the measured total payload size is
`2 * 300000 = 600000` bytes.  `payload_parser` then returns the boundaries
`[0, 2]`: the single slice holds both records, so it serializes to
`2 * 300000 = 600000` bytes, which exceeds the configured ceiling of
360000 bytes.  The claim "every slice serializes to at most 360000 bytes
for uniform records" is therefore false of the code. -/
theorem payloadParser_uniform_size_claim_false :
    payloadParser 2 (2 * 300000) = [0, 2]
    ∧ (slices [0, 1] (payloadParser 2 (2 * 300000))).map List.length = [2]
    ∧ 360000 < 2 * 300000 := by decide

/-- Claim C4, amended — for every non-empty record list whose records all
serialize to the same byte size `r` (so the measured total is
`l.length * r`), every slice produced by `payload_parser` holds at most
`⌊360000 * N / (N * r)⌋ + 1` records, hence serializes to at most
`360000 + r` bytes: the configured ceiling can be exceeded by at most one
record. -/
theorem payloadParser_uniform_size_bound {α : Type} (l : List α) (r : Nat)
    (hr : 0 < r) (hn : 0 < l.length) :
    ∀ sl ∈ slices l (payloadParser l.length (l.length * r)),
      sl.length ≤ 360000 * l.length / (l.length * r) + 1
      ∧ sl.length * r ≤ 360000 + r := by
  intro sl hsl
  obtain ⟨_, h2, _⟩ := payloadParser_spec l.length (l.length * r)
  have hlen : sl.length ≤ 360000 * l.length / (l.length * r) + 1 :=
    slices_length_le l _ _ (h2.imp (fun a b hab => hab.2)) sl hsl
  refine ⟨hlen, ?_⟩
  have hstep : (360000 * l.length / (l.length * r)) * r ≤ 360000 := by
    have hdm : (360000 * l.length / (l.length * r)) * (l.length * r) ≤ 360000 * l.length :=
      Nat.div_mul_le_self _ _
    have hdm' : l.length * ((360000 * l.length / (l.length * r)) * r) ≤ l.length * 360000 := by
      calc l.length * ((360000 * l.length / (l.length * r)) * r)
          = (360000 * l.length / (l.length * r)) * (l.length * r) := by ring
        _ ≤ 360000 * l.length := hdm
        _ = l.length * 360000 := by ring
    exact Nat.le_of_mul_le_mul_left hdm' hn
  calc sl.length * r ≤ (360000 * l.length / (l.length * r) + 1) * r :=
        Nat.mul_le_mul_right r hlen
    _ = (360000 * l.length / (l.length * r)) * r + r := by ring
    _ ≤ 360000 + r := by omega

theorem payloadParser_uniform_size_bound_witness :
    (0 : Nat) < 1
    ∧ (0 : Nat) < List.length [5]
    ∧ (∀ sl ∈ slices [5] (payloadParser (List.length [5]) (List.length [5] * 1)),
        sl.length ≤ 360000 * List.length [5] / (List.length [5] * 1) + 1
        ∧ sl.length * 1 ≤ 360000 + 1) :=
  ⟨by decide, by decide, payloadParser_uniform_size_bound [5] 1 (by decide) (by decide)⟩

/-- A contact object of an API page response, modelled as a JSON object:
an ordered association list from field names to values. -/
abbrev Contact := List (String × String)

/-- A paginated GET request as issued by the page fetchers:
`requests.get(url, params = {"limit": 100, "offset": 100 * index})`. -/
structure PageRequest where
  url : String
  limit : Nat
  offset : Nat
deriving DecidableEq

/-- Endpoint for bounced contacts (src/script.py:74). -/
def url_bounced_contact : String := "https://hri618.api-us1.com/api/3/contacts?status=3"

/-- Endpoint for unsubscribed contacts (src/script.py:75). -/
def url_unsubbed_contact : String := "https://hri618.api-us1.com/api/3/contacts?status=2"

/-- The fixed projection keys of `get_bounced_contacts` (src/script.py:102). -/
def bounced_keys : List String := ["email", "firstName", "lastName", "bounced_date", "id"]

/-- The fixed projection keys of `get_unsubbed_contacts` (src/script.py:115). -/
def unsubbed_keys : List String := ["email", "firstName", "lastName", "cdate", "udate", "id"]

/-- The dict comprehension `{k: c[k] for k in keys if k in c}`
(src/script.py:102, 115): keep, in key order, exactly those keys of the
fixed list that are present in the source object, with their values. -/
def project (keys : List String) (c : Contact) : Contact :=
  keys.filterMap (fun k => (c.lookup k).map (fun v => (k, v)))

/-- Modelled from the spec: `get_bounced_contacts` (src/script.py:98-107).
As written the function passes the undefined name `headers` to
`requests.get`; the adjacent definition `headers_get_bounced_unsubbed_contact`
is the evident intent, and headers do not affect the returned data, so the
HTTP GET is modelled as a function `api` from the request to the page of
contacts.  The function issues one request with `limit = 100` and
`offset = 100 * index` and returns that request together with the projected
page. -/
def get_bounced_contacts (api : PageRequest → List Contact) (index : Nat) :
    PageRequest × List Contact :=
  (⟨url_bounced_contact, 100, 100 * index⟩,
   (api ⟨url_bounced_contact, 100, 100 * index⟩).map (project bounced_keys))

/-- Modelled from the spec: `get_unsubbed_contacts` (src/script.py:111-120),
with the same undefined-`headers` caveat as `get_bounced_contacts`. -/
def get_unsubbed_contacts (api : PageRequest → List Contact) (index : Nat) :
    PageRequest × List Contact :=
  (⟨url_unsubbed_contact, 100, 100 * index⟩,
   (api ⟨url_unsubbed_contact, 100, 100 * index⟩).map (project unsubbed_keys))

/-- `process_contacts(iterator, "bounced")` (src/script.py:123-136): a
joblib `Parallel` map of `get_bounced_contacts` over the iterator.
`Parallel` returns results in the order of the input iterable regardless of
completion order, so it is embedded as an order-preserving `map`. -/
def process_contacts (api : PageRequest → List Contact) (iterator : List Nat) :
    List (PageRequest × List Contact) :=
  iterator.map (get_bounced_contacts api)

/-- `math.ceil(total / 100)` (src/script.py:290), the page count. -/
def numPages (total : Nat) : Nat := (total + 99) / 100

/-- The collation of bounced contacts (src/script.py:288-292): build the
iterator `range(ceil(total / 100))`, fetch all pages with
`process_contacts`, and flatten `[i for j in list_response for i in j]`. -/
def collateBounced (api : PageRequest → List Contact) (total : Nat) : List Contact :=
  ((process_contacts api (List.range (numPages total))).map Prod.snd).flatten

/-- The page requests issued during `collateBounced`, in iterator order. -/
def collateBouncedRequests (api : PageRequest → List Contact) (total : Nat) :
    List PageRequest :=
  (process_contacts api (List.range (numPages total))).map Prod.fst

/-- Sum of page sizes: when page `i` of a `total`-row resource holds
`min 100 (total - 100 * i)` rows, all `numPages total` pages together hold
exactly `total` rows. -/
lemma sum_page_sizes (total : Nat) :
    ((List.range (numPages total)).map (fun i => min 100 (total - 100 * i))).sum = total := by
  rcases Nat.eq_zero_or_pos total with htz | htp
  · subst htz
    have : numPages 0 = 0 := by decide
    rw [this]
    rfl
  · obtain ⟨k, hk1, hk2, hk3⟩ :
        ∃ k, 100 * k < total ∧ total ≤ 100 * (k + 1) ∧ numPages total = k + 1 := by
      have hnp : numPages total = (total + 99) / 100 := rfl
      exact ⟨(total - 1) / 100, by omega, by omega, by rw [hnp]; omega⟩
    rw [hk3, List.range_succ, List.map_append, List.sum_append]
    have hfull : (List.range k).map (fun i => min 100 (total - 100 * i))
        = (List.range k).map (fun _ => 100) := by
      apply List.map_congr_left
      intro i hi
      rw [List.mem_range] at hi
      omega
    rw [hfull]
    have hconst : ((List.range k).map (fun _ => (100 : Nat))).sum = 100 * k := by
      rw [List.map_const', List.sum_replicate, List.length_range, smul_eq_mul]
      omega
    rw [hconst]
    simp only [List.map_cons, List.map_nil, List.sum_cons, List.sum_nil]
    omega

/-- Claim C5 — Paginated Collector: for every total count `total` reported
by the API, exactly `ceil(total / 100)` page requests are issued, with
offsets `100 * i` for `i = 0 .. ceil(total / 100) - 1`, the collected
result is the concatenation of the per-page results in page-index order,
for `total = 250` exactly 3 pages are requested, and when every page is
full the flattened result has length `total`. -/
theorem collate_bounced_pagination (api : PageRequest → List Contact) (total : Nat) :
    collateBouncedRequests api total
        = (List.range (numPages total)).map (fun i => ⟨url_bounced_contact, 100, 100 * i⟩)
    ∧ collateBounced api total
        = ((List.range (numPages total)).map
            (fun i => (api ⟨url_bounced_contact, 100, 100 * i⟩).map (project bounced_keys))).flatten
    ∧ numPages 250 = 3
    ∧ ((∀ i, i < numPages total →
          (api ⟨url_bounced_contact, 100, 100 * i⟩).length = min 100 (total - 100 * i)) →
        (collateBounced api total).length = total) := by
  have hcoll : collateBounced api total
      = ((List.range (numPages total)).map
          (fun i => (api ⟨url_bounced_contact, 100, 100 * i⟩).map (project bounced_keys))).flatten := by
    unfold collateBounced process_contacts get_bounced_contacts
    rw [List.map_map]
    rfl
  refine ⟨?_, hcoll, by decide, ?_⟩
  · unfold collateBouncedRequests process_contacts get_bounced_contacts
    rw [List.map_map]
    rfl
  · intro h
    rw [hcoll, List.length_flatten, List.map_map]
    have hmin : (List.range (numPages total)).map
        (List.length ∘ fun i => (api ⟨url_bounced_contact, 100, 100 * i⟩).map (project bounced_keys))
        = (List.range (numPages total)).map (fun i => min 100 (total - 100 * i)) := by
      apply List.map_congr_left
      intro i hi
      rw [List.mem_range] at hi
      simp only [Function.comp_apply, List.length_map]
      exact h i hi
    rw [hmin, sum_page_sizes]

theorem collate_bounced_pagination_witness :
    (∀ i, i < numPages 250 →
        ((fun r : PageRequest => List.replicate (min 100 (250 - r.offset)) ([] : Contact))
            ⟨url_bounced_contact, 100, 100 * i⟩).length = min 100 (250 - 100 * i))
    ∧ (collateBounced
        (fun r : PageRequest => List.replicate (min 100 (250 - r.offset)) ([] : Contact))
        250).length = 250 :=
  ⟨fun i _ => by simp, (collate_bounced_pagination
      (fun r : PageRequest => List.replicate (min 100 (250 - r.offset)) ([] : Contact))
      250).2.2.2 (fun i _ => by simp)⟩

/-- The date-range mask for bounced contacts (src/script.py:294-295):
keep rows whose `bounced_date` satisfies `(d > start_date) & (d < end_date)`.
Dates are modelled by their proleptic-Gregorian ordinals (as in Python's
`date.toordinal`); a row is a payload paired with its `bounced_date`. -/
def bouncedDateFilter (s e : Int) (rows : List (α × Int)) : List (α × Int) :=
  rows.filter (fun r => decide (s < r.2) && decide (r.2 < e))

/-- The date-range mask for unsubscribed contacts (src/script.py:315-316):
keep rows whose `udate` satisfies `(d > start_date) & (d < end_date)`.
A row is a payload paired with its `cdate` and its `udate`; the mask tests
only the `udate`. -/
def unsubbedDateFilter (s e : Int) (rows : List (α × Int × Int)) : List (α × Int × Int) :=
  rows.filter (fun r => decide (s < r.2.2) && decide (r.2.2 < e))

/-- Claim C6 — Date-Range Filter: a collected contact is kept if and only
if its relevant date (`bounced_date` for bounced, `udate` for unsubscribed)
is strictly between `start_date` and `end_date`.  With
`start_date = 2024-01-08` (ordinal 738893) and `end_date = 2024-01-16`
(ordinal 738901), contacts dated 2024-01-08 and 2024-01-16 are excluded
while 2024-01-09 and 2024-01-15 are kept. -/
theorem date_range_filter_strict :
    (∀ (rows : List (String × Int)) (s e : Int) (r : String × Int),
      r ∈ bouncedDateFilter s e rows ↔ r ∈ rows ∧ s < r.2 ∧ r.2 < e)
    ∧ (∀ (rows : List (String × Int × Int)) (s e : Int) (r : String × Int × Int),
      r ∈ unsubbedDateFilter s e rows ↔ r ∈ rows ∧ s < r.2.2 ∧ r.2.2 < e)
    ∧ bouncedDateFilter 738893 738901
        [("a", 738893), ("b", 738894), ("c", 738900), ("d", 738901)]
        = [("b", 738894), ("c", 738900)]
    ∧ unsubbedDateFilter 738893 738901
        [("a", 738880, 738893), ("b", 738880, 738894),
         ("c", 738880, 738900), ("d", 738880, 738901)]
        = [("b", 738880, 738894), ("c", 738880, 738900)] := by
  refine ⟨?_, ?_, by decide, by decide⟩
  · intro rows s e r
    rw [bouncedDateFilter, List.mem_filter]
    simp [Bool.and_eq_true, decide_eq_true_iff, and_assoc]
  · intro rows s e r
    rw [unsubbedDateFilter, List.mem_filter]
    simp [Bool.and_eq_true, decide_eq_true_iff, and_assoc]

/-- `lookback_days` (src/script.py:67). -/
def lookback_days : Int := 7

/-- `weekly_multiplier` (src/script.py:67). -/
def weekly_multiplier : Int := 1

/-- Python's `date.weekday()` (Monday = 0) on a proleptic-Gregorian ordinal:
ordinal 1 (0001-01-01) is a Monday, so the weekday is `(d - 1) % 7`. -/
def weekday (d : Int) : Int := (d - 1) % 7

/-- `start_date` (src/script.py:68-71): today minus its weekday (the Monday
of the current week), minus `lookback_days`, minus one more day. -/
def start_date (today : Int) : Int := today - weekday today - lookback_days - 1

/-- `end_date` (src/script.py:72-73): `start_date` plus
`7 * weekly_multiplier + 1` days. -/
def end_date (today : Int) : Int := start_date today + (7 * weekly_multiplier + 1)

/-- The claim's reference point, following the spec's words: the Monday of
the week before the run, i.e. the Monday of the current week minus 7. -/
def last_week_start (today : Int) : Int := today - weekday today - 7

/-- Claim C7, counterexample — run the script on Monday 2024-01-15
(ordinal 738900).  The Monday of the week before is 2024-01-08 (738893),
so the claim requires `start_date = 738893 - 7 = 738886` (2024-01-01);
the code computes `start_date = 738892` (Sunday 2024-01-07). -/
theorem rolling_window_claim_false :
    start_date 738900 = 738892
    ∧ last_week_start 738900 - lookback_days = 738886
    ∧ start_date 738900 ≠ last_week_start 738900 - lookback_days := by decide

/-- Claim C7, amended — for every run date, `end_date = start_date + 8`
days, and `start_date` is one day before the Monday of the week before the
run: the window is always `[last_week_start - 1, last_week_start + 7)`
relative to the run date (equivalently, the Monday of the current week
minus `lookback_days` minus 1), not `[last_week_start - lookback, ...)`. -/
theorem rolling_window_amended (today : Int) :
    end_date today = start_date today + 8
    ∧ start_date today = last_week_start today - 1
    ∧ start_date today = (today - weekday today) - lookback_days - 1 := by
  refine ⟨?_, ?_, rfl⟩
  · rw [end_date, weekly_multiplier]
    ring
  · rw [start_date, last_week_start, lookback_days]

/-- `get_contacts_cons_id` (src/script.py:140-147), restricted to its data
transformation: from the contact's `fieldValues` list (modelled as
`(field, value)` pairs), return `np.nan` (modelled as `none`) if no entry
has `field == "2"`, and otherwise the `value` of the first such entry,
mirroring `nan if len([i for i in fv if i["field"] == "2"]) == 0 else
[i for i in fv if i["field"] == "2"][0]["value"]`. -/
def get_contacts_cons_id (fieldValues : List (String × String)) : Option String :=
  if (fieldValues.filter (fun i => i.1 == "2")).length = 0 then none
  else ((fieldValues.filter (fun i => i.1 == "2")).head?).map Prod.snd

/-- Claim C9 — missing CRM id fallback: `get_contacts_cons_id` returns the
value of the first `fieldValues` entry whose field is `"2"` when one
exists, and the missing-value placeholder (`none`, modelling `np.nan`)
when none exists; it is a total function, so a contact lacking the custom
field yields `none` rather than an error. -/
theorem get_contacts_cons_id_first_field2 (fieldValues : List (String × String)) :
    get_contacts_cons_id fieldValues
      = (fieldValues.find? (fun i => i.1 == "2")).map Prod.snd := by
  induction fieldValues with
  | nil => rfl
  | cons p t ih =>
    unfold get_contacts_cons_id
    rw [List.filter_cons, List.find?_cons]
    cases hb : (p.1 == "2") with
    | true => rfl
    | false => exact ih

/-- The keys of a projected contact are exactly the fixed keys that are
present in the source object, in the fixed order. -/
lemma project_keys_filter (keys : List String) (c : Contact) :
    (project keys c).map Prod.fst = keys.filter (fun k => (c.lookup k).isSome) := by
  induction keys with
  | nil => rfl
  | cons k t ih =>
    rw [project, List.filterMap_cons, List.filter_cons]
    cases hl : c.lookup k with
    | none => exact ih
    | some v => exact congrArg (List.cons k) ih

/-- Claim C10 — total field projection: the projected contacts returned by
`get_bounced_contacts` (resp. `get_unsubbed_contacts`) carry exactly those
keys of the fixed projection list that are present in the source contact;
absent keys are silently omitted (the projection is a total function, so no
key lookup can fail), and every returned contact is the projection of a
source contact of the requested page. -/
theorem projection_keys_exact (c : Contact) (api : PageRequest → List Contact) (i : Nat) :
    (project bounced_keys c).map Prod.fst
        = bounced_keys.filter (fun k => (c.lookup k).isSome)
    ∧ (project unsubbed_keys c).map Prod.fst
        = unsubbed_keys.filter (fun k => (c.lookup k).isSome)
    ∧ (∀ pc ∈ (get_bounced_contacts api i).2,
        ∃ c₀ ∈ api ⟨url_bounced_contact, 100, 100 * i⟩, pc = project bounced_keys c₀)
    ∧ (∀ pc ∈ (get_unsubbed_contacts api i).2,
        ∃ c₀ ∈ api ⟨url_unsubbed_contact, 100, 100 * i⟩, pc = project unsubbed_keys c₀) := by
  refine ⟨project_keys_filter _ c, project_keys_filter _ c, ?_, ?_⟩
  · intro pc hpc
    rw [get_bounced_contacts, List.mem_map] at hpc
    obtain ⟨c₀, hc₀, rfl⟩ := hpc
    exact ⟨c₀, hc₀, rfl⟩
  · intro pc hpc
    rw [get_unsubbed_contacts, List.mem_map] at hpc
    obtain ⟨c₀, hc₀, rfl⟩ := hpc
    exact ⟨c₀, hc₀, rfl⟩

theorem projection_keys_exact_witness :
    (project bounced_keys [("email", "a"), ("junk", "x")]).map Prod.fst
        = bounced_keys.filter (fun k => (([("email", "a"), ("junk", "x")] : Contact).lookup k).isSome)
    ∧ (project bounced_keys [("email", "a"), ("junk", "x")]).map Prod.fst = ["email"]
    ∧ (∀ pc ∈ (get_bounced_contacts (fun _ => [[("email", "a"), ("junk", "x")]]) 0).2,
        ∃ c₀ ∈ (fun _ : PageRequest => [[("email", "a"), ("junk", "x")]])
            (⟨url_bounced_contact, 100, 100 * 0⟩ : PageRequest),
          pc = project bounced_keys c₀) :=
  ⟨(projection_keys_exact [("email", "a"), ("junk", "x")]
      (fun _ => [[("email", "a"), ("junk", "x")]]) 0).1,
   by decide,
   (projection_keys_exact [("email", "a"), ("junk", "x")]
      (fun _ => [[("email", "a"), ("junk", "x")]]) 0).2.2.1⟩

/-- A CSV artifact as uploaded to the remote store: whether a header row is
written, and the data rows. -/
structure CsvLog (α : Type) where
  hasHeader : Bool
  rows : List α
deriving DecidableEq

/-- The run-log block (src/script.py:339-352).  `existing` is the parsed
data rows of `runtime_logs.csv` when the file exists in the log-dump
folder, `none` otherwise; `newRow` is this run's metadata row (`df_logs`).
When the file exists the code evaluates `_df_logs.append(df_logs,
ignore_index = True)` (line 342) but discards its result (pandas
`DataFrame.append` returns a new frame; on pandas 2.x it is removed and
raises), then uploads `_df_logs` — the prior rows, unchanged.  The
discarded value is kept here as `_appended` to mirror line 342.  When the
file does not exist, the code uploads the fresh one-row frame with a
header. -/
def runLogUpload {α : Type} (existing : Option (List α)) (newRow : α) : CsvLog α :=
  match existing with
  | some oldRows =>
    let _appended := oldRows ++ [newRow]
    { hasHeader := true, rows := oldRows }
  | none => { hasHeader := true, rows := [newRow] }

/-- Claim C1 — Run Log Appender, evaluated at a 3-row existing log: the
uploaded log still has the 3 prior rows and not the claimed 4; the new
row is lost because the result of `DataFrame.append` is discarded.  The
fresh-file branch does behave as claimed: a 1-row log with a header. -/
theorem run_log_upload_drops_new_row :
    (runLogUpload (some ["row1", "row2", "row3"]) "row4").rows = ["row1", "row2", "row3"]
    ∧ (runLogUpload (some ["row1", "row2", "row3"]) "row4").rows.length = 3
    ∧ (runLogUpload (some ["row1", "row2", "row3"]) "row4").rows
        ≠ ["row1", "row2", "row3", "row4"]
    ∧ runLogUpload (none : Option (List String)) "row4"
        = { hasHeader := true, rows := ["row4"] } := by decide

/-- Python's substring test `needle in hay`: some index of `hay` starts an
occurrence of `needle` (including the empty needle). -/
def strContains (hay needle : String) : Bool :=
  (List.range (hay.toList.length + 1)).any
    (fun i => needle.toList.isPrefixOf (hay.toList.drop i))

/-- `np.select(condlist, choicelist, default = 0)` on scalars: the choice
of the first true condition, else the default (numpy's default `0`,
rendered as the string it prints as). -/
def npSelect (conds : List (Bool × String)) (dflt : String) : String :=
  match conds.find? (fun c => c.1) with
  | some c => c.2
  | none => dflt

/-- Modelled from the spec: the welcome-source list-id mapping
(src/script.py:168-181).  As written that `np.select` call does not parse —
the five conditions in the condition list are not separated by commas
(a Python SyntaxError) — and each condition applies `.split` to the file
dict `i` rather than to the base filename `i["Name"].split(".")[0]`.  This
definition follows the spec's Record Mapper and the code's own
per-condition comments: the base filename is tested for each marker
substring and the matching list-id is selected. -/
def welcomeListid (basename : String) : String :=
  npSelect [
    (strContains basename "Welcome", "71"),
    (strContains basename "1stWeekEmail", "26"),
    (strContains basename "2ndMonthEmail", "246"),
    (strContains basename "3rdMonthEmail", "241"),
    (strContains basename "2YearEmail", "72")
  ] "0"

/-- The segmentation-source list-id mapping (src/script.py:230-249): per
row, `np.select` over conjunctions of substring tests on the `Appeal` and
`Package` columns, first match winning. -/
def segmentationListid (appeal pkg : String) : String :=
  npSelect [
    (strContains appeal "AU" && strContains pkg "Active", "199"),
    (strContains appeal "AU" && strContains pkg "Lapsed", "200"),
    (strContains appeal "AU" && strContains pkg "Insight", "236"),
    (strContains appeal "AU" && strContains pkg "NonInsight", "237"),
    (strContains appeal "NZ" && strContains pkg "Active", "256"),
    (strContains appeal "NZ" && strContains pkg "Lapsed", "254"),
    (strContains appeal "NZ" && strContains pkg "Other", "258")
  ] "0"

/-- Claim C8 — Record Mapper list assignment: a welcome-source row whose
base filename contains "Welcome" maps to list-id "71" (first condition of
the intended `np.select`, so it wins regardless of later markers), and a
segmentation-source row whose Appeal contains "AU" and whose Package
contains "Active" maps to list-id "199" (first condition of the
segmentation `np.select`). -/
theorem record_mapper_listids (base appeal pkg : String)
    (hw : strContains base "Welcome" = true)
    (ha : strContains appeal "AU" = true)
    (hp : strContains pkg "Active" = true) :
    welcomeListid base = "71" ∧ segmentationListid appeal pkg = "199" := by
  constructor
  · rw [welcomeListid, npSelect, hw]
    rfl
  · rw [segmentationListid, npSelect, ha, hp]
    rfl

theorem record_mapper_listids_witness :
    strContains "Welcome2024" "Welcome" = true
    ∧ strContains "AU123" "AU" = true
    ∧ strContains "RG-Active" "Active" = true
    ∧ (welcomeListid "Welcome2024" = "71" ∧ segmentationListid "AU123" "RG-Active" = "199") :=
  ⟨by decide, by decide, by decide,
   record_mapper_listids "Welcome2024" "AU123" "RG-Active" (by decide) (by decide) (by decide)⟩
